import Mathlib

/-!
Verification development for the metagraph plugin-registry core.

The definitions below are a shallow embedding of
`src/metagraph/core/plugin_registry.py` (the `PluginRegistry` class) and of
`src/metagraph/plugins/pandas/types.py` (`PandasEdgeMap.compute_abstract_properties`
and `PandasEdgeMap.assert_equal`).  Python machine-level details are embedded as
follows: strings are Lean `String` (operated on through their character lists),
Python `set` catalogs are duplicate-free lists with membership-guarded insertion,
modules are identified by numeric ids inside an explicit environment (Python
compares modules by object identity), numpy float64 weights are embedded as `ℚ`,
and fallible code returns an explicit error component.
-/

namespace Metagraph

/-- Python `s.startswith(pre)`, embedded on the character list of the string. -/
def strStartsWith (s pre : String) : Bool :=
  pre.data.isPrefixOf s.data

/-- Python `s.count(".")` for a single-character needle: the number of `'.'`
characters in `s` (used as the nesting-depth sort key in
`register_from_modules`). -/
def countDots (s : String) : Nat :=
  s.data.count '.'

/-- Python `set.add`: insert an element into a duplicate-free list unless it is
already present (identity-keyed set semantics). -/
def insertSet {α : Type} [DecidableEq α] (x : α) (s : List α) : List α :=
  if x ∈ s then s else x :: s

/-- A class object as seen by the registry: its identity, its `__module__`
string, which of the three type bases (`AbstractType`, `ConcreteType`,
`Wrapper`, declared in `metagraph/core/plugin.py`) it is a subclass of, and
whether it is one of those three base markers itself.  The base classes are
opaque markers to the registry code, so a class is embedded by the outcomes of
the `issubclass` tests the registry performs on it. -/
structure ClassVal where
  id : Nat
  module : String
  subAbstract : Bool
  subConcrete : Bool
  subWrapper : Bool
  isBase : Bool
deriving DecidableEq

/-- A non-class object as seen by the registry: its identity and the outcomes
of the `isinstance` tests against the three marker capabilities
(`Translator`, `AbstractAlgorithm`, `ConcreteAlgorithm`). -/
structure InstVal where
  id : Nat
  isTranslator : Bool
  isAbstractAlgo : Bool
  isConcreteAlgo : Bool
deriving DecidableEq

/-- A Python value reaching the registry: a class (`type(obj) is type`), an
instance-like object, a module (identified by id in the environment), or any
other object. -/
inductive Entity where
  | cls (c : ClassVal)
  | inst (i : InstVal)
  | module (mid : Nat)
  | other (id : Nat)
deriving DecidableEq

/-- Errors raised by the embedded code: `PluginRegistryError` from
`PluginRegistry.register`, `TypeError` from the argument validation in
`register_from_modules`. -/
inductive PyErr where
  | pluginRegistryError
  | typeError
deriving DecidableEq

/-- The six catalogs of `PluginRegistry.__init__` (`self.plugins`), each a
Python `set` embedded as a duplicate-free list. -/
structure Registry where
  abstract_types : List Entity
  concrete_types : List Entity
  wrappers : List Entity
  translators : List Entity
  abstract_algorithms : List Entity
  concrete_algorithms : List Entity
deriving DecidableEq

/-- The freshly initialized registry: six empty catalogs. -/
def emptyRegistry : Registry :=
  ⟨[], [], [], [], [], []⟩

/-- `PluginRegistry.register`: classify `obj` by the if/elif chains of the
source and add it to the matching catalog; if no branch matches, the registry
is left untouched and `PluginRegistryError` is raised (returned as the second
component). -/
def register (obj : Entity) (r : Registry) : Registry × Option PyErr :=
  match obj with
  | .cls c =>
    if c.subAbstract then
      ({ r with abstract_types := insertSet obj r.abstract_types }, none)
    else if c.subConcrete then
      ({ r with concrete_types := insertSet obj r.concrete_types }, none)
    else if c.subWrapper then
      ({ r with wrappers := insertSet obj r.wrappers }, none)
    else
      (r, some .pluginRegistryError)
  | .inst i =>
    if i.isTranslator then
      ({ r with translators := insertSet obj r.translators }, none)
    else if i.isAbstractAlgo then
      ({ r with abstract_algorithms := insertSet obj r.abstract_algorithms }, none)
    else if i.isConcreteAlgo then
      ({ r with concrete_algorithms := insertSet obj r.concrete_algorithms }, none)
    else
      (r, some .pluginRegistryError)
  | .module _ => (r, some .pluginRegistryError)
  | .other _ => (r, some .pluginRegistryError)

/-- An object matches one of the six recognized capabilities (so `register`
succeeds on it). -/
def registrable : Entity → Bool
  | .cls c => c.subAbstract || c.subConcrete || c.subWrapper
  | .inst i => i.isTranslator || i.isAbstractAlgo || i.isConcreteAlgo
  | .module _ => false
  | .other _ => false

/-- Membership of an entity in some catalog of the registry. -/
def inReg (e : Entity) (r : Registry) : Prop :=
  e ∈ r.abstract_types ∨ e ∈ r.concrete_types ∨ e ∈ r.wrappers ∨
    e ∈ r.translators ∨ e ∈ r.abstract_algorithms ∨ e ∈ r.concrete_algorithms

instance (e : Entity) (r : Registry) : Decidable (inReg e r) := by
  unfold inReg; infer_instance

/-- Total number of occurrences of an entity across the six catalogs. -/
def totalCount (e : Entity) (r : Registry) : Nat :=
  r.abstract_types.count e + r.concrete_types.count e + r.wrappers.count e +
    r.translators.count e + r.abstract_algorithms.count e + r.concrete_algorithms.count e

/-- Iterated registration: `regIter obj r n` is the registry after calling
`register obj` `n` times starting from `r` (exceptions cannot occur after the
first call decides the branch; the error component is discarded as each raise
leaves the registry untouched). -/
def regIter (obj : Entity) (r : Registry) : Nat → Registry
  | 0 => r
  | n + 1 => (register obj (regIter obj r n)).1

/-- A module: its `__name__` and its `vars(module).items()` dictionary, in
insertion order.  Member values that are themselves modules refer to the module
environment by id, which lets mutually re-exporting modules (cycles in the
namespace graph) be represented. -/
structure ModuleDef where
  name : String
  members : List (String × Entity)
deriving DecidableEq

/-- The environment of live module objects, keyed by identity. -/
abbrev Env := List (Nat × ModuleDef)

/-- Dereference a module id in the environment. -/
def lookupMod (env : Env) (mid : Nat) : Option ModuleDef :=
  (env.find? fun p => p.1 == mid).map Prod.snd

/-- The mutable state threaded through `register_from_modules`: the registry
being populated, the `seen_modules` set, and a ghost log recording each call of
the inner `_register_module` function (the module it is invoked on), in order.
The log is observational instrumentation only; no other part of the state
depends on it. -/
structure ScanState where
  reg : Registry
  seen : List Nat
  visits : List Nat
deriving DecidableEq

/-- The condition of the type-member branch of `_register_module`:
`issubclass(val, (Wrapper, ConcreteType, AbstractType))`, the origin check
`val.__module__ == base_name or val.__module__.startswith(base_name + ".")`,
and `val not in {Wrapper, ConcreteType, AbstractType}`. -/
def typeQualifies (baseName : String) (c : ClassVal) : Bool :=
  (c.subWrapper || c.subConcrete || c.subAbstract) &&
    (c.module == baseName || strStartsWith c.module (baseName ++ ".")) &&
    !c.isBase

/-- The condition of the instance-member branch of `_register_module`:
`isinstance(val, (Translator, ConcreteAlgorithm, AbstractAlgorithm))`. -/
def instQualifies (i : InstVal) : Bool :=
  i.isTranslator || i.isConcreteAlgo || i.isAbstractAlgo

/-- One iteration of the member loop of `_register_module`, parametric in the
handler `recInto` used to recurse into a nested module (the handler is invoked
after the module has been added to `seen`, exactly as in the source).  Members
named with a leading underscore are skipped; qualifying classes and instances
are passed to `register` (whose error component is statically `none` on these
branches, since the scan's own filters imply a capability match); a member
module is recursed into when `recurse` is set, its dotted name textually
starts with the scan root's name, and it has not been seen in this call. -/
def memberStep (recInto : Nat → ScanState → ScanState) (baseName : String)
    (recurse : Bool) (env : Env) (key : String) (val : Entity)
    (st : ScanState) : ScanState :=
  if strStartsWith key "_" then st
  else
    match val with
    | .cls c =>
      if typeQualifies baseName c then
        { st with reg := (register (.cls c) st.reg).1 }
      else st
    | .inst i =>
      if instQualifies i then
        { st with reg := (register (.inst i) st.reg).1 }
      else st
    | .module mid =>
      match lookupMod env mid with
      | some d =>
        if recurse ∧ strStartsWith d.name baseName = true ∧ mid ∉ st.seen then
          recInto mid { st with seen := insertSet mid st.seen }
        else st
      | none => st
    | .other _ => st

/-- The member loop of `_register_module`: fold `memberStep` over the
dictionary, in insertion order. -/
def scanMembersF (recInto : Nat → ScanState → ScanState) (baseName : String)
    (recurse : Bool) (env : Env) : List (String × Entity) → ScanState → ScanState
  | [], st => st
  | (key, val) :: rest, st =>
    scanMembersF recInto baseName recurse env rest
      (memberStep recInto baseName recurse env key val st)

/-- `_register_module` itself: log the call, then run the member loop, with
nested modules handled by a recursive call one fuel level down.  The fuel
argument only bounds the recursion depth so that the definition is total; the
stability theorems below show the result is fuel-independent once the fuel
exceeds the number of unseen modules, which is the termination argument for
the source's unbounded recursion. -/
def scanModule (env : Env) (recurse : Bool) (baseName : String) :
    Nat → Nat → ScanState → ScanState
  | 0 => fun _ st => st
  | fuel + 1 => fun mid st =>
    match lookupMod env mid with
    | some d =>
      scanMembersF (scanModule env recurse baseName fuel) baseName recurse env
        d.members { st with visits := st.visits ++ [mid] }
    | none => st

/-- Python `inspect.ismodule`. -/
def isModuleEnt : Entity → Bool
  | .module _ => true
  | _ => false

/-- The `__name__` of a module entity (total helper; every live module has a
name). -/
def modName (env : Env) (mid : Nat) : String :=
  match lookupMod env mid with
  | some d => d.name
  | none => ""

/-- `PluginRegistry.register_from_modules` with an explicit recursion bound:
validate that every argument is a module (raising `TypeError` before any
registration otherwise), sort the roots by the number of dots in their names
(Python's stable `sorted`, embedded as Mathlib's stable insertion sort), and
scan each root after adding it to `seen_modules`.  The single-list/tuple
argument unwrapping of the source is outside this embedding: `args` is the
final argument list.  The initial `seen_modules` set is empty and the ghost
visit log starts empty. -/
def register_from_modulesFuel (env : Env) (fuel : Nat) (args : List Entity)
    (recurse : Bool) (r : Registry) : ScanState × Option PyErr :=
  let st0 : ScanState := ⟨r, [], []⟩
  if args.all isModuleEnt then
    let mids := args.filterMap fun e =>
      match e with
      | .module m => some m
      | _ => none
    let sorted := List.insertionSort
      (fun x y => countDots (modName env x) ≤ countDots (modName env y)) mids
    (sorted.foldl
      (fun st mid =>
        scanModule env recurse (modName env mid) fuel mid
          { st with seen := insertSet mid st.seen })
      st0, none)
  else (st0, some .typeError)

/-- `register_from_modules` at the canonical sufficient fuel `env.length + 1`
(the recursion of the source can visit each module at most once per call, so
this bound is never hit; see the fuel-stability theorem). -/
def register_from_modules (env : Env) (args : List Entity) (recurse : Bool)
    (r : Registry) : ScanState × Option PyErr :=
  register_from_modulesFuel env (env.length + 1) args recurse r

/-! Embedding of `src/metagraph/plugins/pandas/types.py` (`PandasEdgeMap`).
The weight column of the backing DataFrame is embedded by its declared dtype:
float64 values as `ℚ`, int64 as `ℤ`, bool as `Bool`, and object/str as
`String`. -/

/-- Errors raised by the embedded pandas code: `KeyError` from
`_validate_abstract_props`, `TypeError` from an unsupported comparison
(Python 3 refuses `str < int`), `AssertionError` from a failed `assert`. -/
inductive PdErr where
  | keyError
  | typeError
  | assertionError
deriving DecidableEq

deriving instance DecidableEq for Except

/-- The weight column of a `PandasEdgeMap`, by declared dtype. -/
inductive Column where
  | floatCol (xs : List ℚ)
  | intCol (xs : List ℤ)
  | boolCol (xs : List Bool)
  | strCol (xs : List String)
deriving DecidableEq

/-- `dtypes.dtypes_simplified[...]`: the simplified dtype string of the weight
column. -/
def dtypeOf : Column → String
  | .floatCol _ => "float"
  | .intCol _ => "int"
  | .boolCol _ => "bool"
  | .strCol _ => "str"

/-- Result of the sign analysis `min_val < 0 / == 0 / else` on a numeric
column, mirroring that pandas' `Series.min()` on an empty column yields NaN,
for which both comparisons are false (so the `else` branch assigns
"positive"). -/
def signWeights (minv : Option ℚ) : String :=
  match minv with
  | none => "positive"
  | some m => if m < 0 then "any" else if m = 0 then "non-negative" else "positive"

/-- `PandasEdgeMap.compute_abstract_properties`.  The first step embeds
`cls._validate_abstract_props(props)` (the helper lives in the metagraph core
outside `src/`; per the specification it fails when a requested name is not
declared, and the properties this concrete type serves are `is_directed`,
`dtype` and `weights`).  The fast properties `is_directed` and `dtype` are
always returned; the slow `weights` property is computed only when requested.
On the slow path, the source's `if ret["dtype"] == "str": weights = "any"`
assignment is dead (there is no `elif` after it), so a non-bool dtype always
reaches `values.min()` and the comparison `min_val < 0`; for a nonempty string
column that comparison is `str < int` and raises `TypeError`. -/
def compute_abstract_properties (is_directed : Bool) (col : Column)
    (props : List String) : Except PdErr (List (String × String)) :=
  if ¬ props.all (fun p => p ∈ ["is_directed", "dtype", "weights"]) then
    .error .keyError
  else
    let ret : List (String × String) :=
      [("is_directed", if is_directed then "True" else "False"), ("dtype", dtypeOf col)]
    if "weights" ∈ props then
      match
        (if dtypeOf col == "bool" then Except.ok "non-negative"
         else
           match col with
           | .floatCol xs => .ok (signWeights xs.min?)
           | .intCol xs => .ok (signWeights ((xs.map fun z => (z : ℚ)).min?))
           | .boolCol _ => .ok "non-negative"
           | .strCol xs =>
             match xs with
             | [] => .ok (signWeights none)
             | _ :: _ => .error PdErr.typeError) with
      | .ok w => .ok (ret ++ [("weights", w)])
      | .error e => .error e
    else
      .ok ret

/-- A `PandasEdgeMap` whose weight column has a floating dtype (the branch of
`assert_equal` the numeric-tolerance contract concerns): `is_directed`, and the
rows of the backing DataFrame as `(src, dst) index key, weight` pairs in
storage order. -/
structure PandasEdgeMapQ where
  is_directed : Bool
  rows : List ((Int × Int) × ℚ)
deriving DecidableEq

/-- The MultiIndex of the edge map: its list of `(src, dst)` keys. -/
def emKeys (o : PandasEdgeMapQ) : List (Int × Int) :=
  o.rows.map Prod.fst

/-- Absolute value on `ℚ`, written out so that it evaluates by kernel
reduction. -/
def ratAbs (q : ℚ) : ℚ :=
  if q < 0 then -q else q

/-- `np.isclose(a, b, rtol, atol)` for finite values:
`abs(a - b) <= atol + rtol * abs(b)`. -/
def isclose (a b rel_tol abs_tol : ℚ) : Bool :=
  ratAbs (a - b) ≤ abs_tol + rel_tol * ratAbs b

/-- `PandasEdgeMap.assert_equal` for floating weights: assert equal
directedness, equal lengths, full index overlap
(`len(obj1.index & obj2.index) == len(obj1.index)`, embedded for the
duplicate-free indexes the wrapper maintains), reindex `g2` by `obj1.index`
when the indexes are not already elementwise equal (a key absent from `obj2`
would reindex to NaN, which no value is close to — embedded as an absent
lookup that fails the comparison), and finally require
`np.isclose(v1, v2, rtol=rel_tol, atol=abs_tol)` elementwise. -/
def assert_equal (o1 o2 : PandasEdgeMapQ) (rel_tol abs_tol : ℚ) :
    Except PdErr Unit :=
  if o1.is_directed ≠ o2.is_directed then .error .assertionError
  else if o1.rows.length ≠ o2.rows.length then .error .assertionError
  else if ((emKeys o1).filter fun k => decide (k ∈ emKeys o2)).length ≠
      (emKeys o1).length then .error .assertionError
  else
    let v1 : List ℚ := o1.rows.map Prod.snd
    let v2 : List (Option ℚ) :=
      if emKeys o1 = emKeys o2 then o2.rows.map fun p => some p.2
      else (emKeys o1).map fun k =>
        ((o2.rows.find? fun p => decide (p.1 = k)).map Prod.snd)
    if (v1.zip v2).all
        (fun p =>
          match p.2 with
          | some b => isclose p.1 b rel_tol abs_tol
          | none => false) then
      .ok ()
    else .error .assertionError

/-- Number of environment modules not yet in the seen set (the measure that
bounds the recursion depth of the scan). -/
def unseen (env : Env) (seen : List Nat) : Nat :=
  env.countP fun p => decide (p.1 ∉ seen)

/-! Concrete example data used to settle the claims on representative
inputs. -/

/-- Example class declared in module `a`: a `ConcreteType` subclass. -/
def exClassA : ClassVal := ⟨100, "a", false, true, false, false⟩

/-- Example class declared in module `a.b`: a `Wrapper` subclass. -/
def exClassAB : ClassVal := ⟨101, "a.b", false, false, true, false⟩

/-- Environment with a root package `a` containing the submodule `a.b`, each
declaring one registrable class. -/
def envNested : Env :=
  [(0, ⟨"a", [("b", .module 1), ("C", .cls exClassA)]⟩),
   (1, ⟨"a.b", [("D", .cls exClassAB)]⟩)]

/-- Environment where `a` and `a.b` mutually re-export each other (a cycle in
the namespace graph), each declaring one registrable class. -/
def envCycle : Env :=
  [(0, ⟨"a", [("b", .module 1), ("C", .cls exClassA)]⟩),
   (1, ⟨"a.b", [("a", .module 0), ("D", .cls exClassAB)]⟩)]

/-- Example class declared in the module named `pkg2`: a `ConcreteType`
subclass whose `__module__` merely extends the string `pkg`. -/
def exClassPkg2 : ClassVal := ⟨102, "pkg2", false, true, false, false⟩

/-- Environment with root `pkg` re-exporting a distinct module named `pkg2`
(not dot-nested under `pkg`), which declares one class. -/
def envPkgPair : Env :=
  [(0, ⟨"pkg", [("x", .module 1)]⟩),
   (1, ⟨"pkg2", [("C", .cls exClassPkg2)]⟩)]

/-! Helper lemmas about set insertion and `register`. -/

theorem mem_insertSet_self {α : Type} [DecidableEq α] (x : α) (s : List α) :
    x ∈ insertSet x s := by
  unfold insertSet
  by_cases h : x ∈ s
  · simp only [if_pos h]; exact h
  · simp [h]

theorem insertSet_of_mem {α : Type} [DecidableEq α] {x : α} {s : List α}
    (h : x ∈ s) : insertSet x s = s := by
  unfold insertSet
  exact if_pos h

theorem insertSet_idem {α : Type} [DecidableEq α] (x : α) (s : List α) :
    insertSet x (insertSet x s) = insertSet x s :=
  insertSet_of_mem (mem_insertSet_self x s)

theorem mem_insertSet_iff {α : Type} [DecidableEq α] (x y : α) (s : List α) :
    y ∈ insertSet x s ↔ y = x ∨ y ∈ s := by
  unfold insertSet
  by_cases h : x ∈ s
  · simp only [if_pos h]
    constructor
    · exact fun hy => Or.inr hy
    · rintro (rfl | hy)
      · exact h
      · exact hy
  · simp [if_neg h]

theorem subset_insertSet {α : Type} [DecidableEq α] (x : α) (s : List α) :
    s ⊆ insertSet x s := by
  intro y hy
  exact (mem_insertSet_iff x y s).mpr (Or.inr hy)

theorem count_insertSet_self {α : Type} [DecidableEq α] (x : α) (s : List α)
    (h : s.count x = 0) : (insertSet x s).count x = 1 := by
  have hx : x ∉ s := List.count_eq_zero.mp h
  unfold insertSet
  rw [if_neg hx, List.count_cons_self, h]

theorem count_insertSet_other {α : Type} [DecidableEq α] (x y : α) (s : List α)
    (h : y ≠ x) : (insertSet x s).count y = s.count y := by
  unfold insertSet
  by_cases hx : x ∈ s
  · rw [if_pos hx]
  · rw [if_neg hx, List.count_cons_of_ne h]

/-- `register` succeeds exactly on objects matching one of the six recognized
capabilities. -/
theorem register_snd_eq_none_iff (obj : Entity) (r : Registry) :
    (register obj r).2 = none ↔ registrable obj = true := by
  cases obj with
  | cls c =>
    by_cases h1 : c.subAbstract <;> by_cases h2 : c.subConcrete <;>
      by_cases h3 : c.subWrapper <;> simp [register, registrable, h1, h2, h3]
  | inst i =>
    by_cases h1 : i.isTranslator <;> by_cases h2 : i.isAbstractAlgo <;>
      by_cases h3 : i.isConcreteAlgo <;> simp [register, registrable, h1, h2, h3]
  | module mid => simp [register, registrable]
  | other id => simp [register, registrable]

/-- A failed `register` call leaves the registry untouched. -/
theorem register_fst_of_unregistrable (obj : Entity) (r : Registry)
    (h : registrable obj = false) : (register obj r).1 = r := by
  cases obj with
  | cls c =>
    simp only [registrable, Bool.or_eq_false_iff] at h
    simp [register, h.1.1, h.1.2, h.2]
  | inst i =>
    simp only [registrable, Bool.or_eq_false_iff] at h
    simp [register, h.1.1, h.1.2, h.2]
  | module mid => simp [register]
  | other id => simp [register]

/-- Registering the same object a second time has no further effect. -/
theorem register_idem (obj : Entity) (r : Registry) :
    (register obj (register obj r).1).1 = (register obj r).1 := by
  cases obj with
  | cls c =>
    by_cases h1 : c.subAbstract <;> by_cases h2 : c.subConcrete <;>
      by_cases h3 : c.subWrapper <;>
      simp [register, h1, h2, h3, insertSet_idem]
  | inst i =>
    by_cases h1 : i.isTranslator <;> by_cases h2 : i.isAbstractAlgo <;>
      by_cases h3 : i.isConcreteAlgo <;>
      simp [register, h1, h2, h3, insertSet_idem]
  | module mid => simp [register]
  | other id => simp [register]

/-- Registering an object never introduces a different entity into any
catalog. -/
theorem register_preserves_notin (e obj : Entity) (r : Registry)
    (hne : e ≠ obj) (h : ¬ inReg e r) : ¬ inReg e (register obj r).1 := by
  have hmem : ∀ s : List Entity, e ∉ s → e ∉ insertSet obj s := by
    intro s hs hmem
    rcases (mem_insertSet_iff obj e s).mp hmem with h' | h'
    · exact hne h'
    · exact hs h'
  unfold inReg at h
  push_neg at h
  obtain ⟨h1, h2, h3, h4, h5, h6⟩ := h
  cases obj with
  | cls c =>
    by_cases b1 : c.subAbstract <;> by_cases b2 : c.subConcrete <;>
      by_cases b3 : c.subWrapper <;>
      · simp only [register, b1, b2, b3, if_true, if_false, Bool.false_eq_true]
        unfold inReg
        simp_all [hmem _ h1, hmem _ h2, hmem _ h3]
  | inst i =>
    by_cases b1 : i.isTranslator <;> by_cases b2 : i.isAbstractAlgo <;>
      by_cases b3 : i.isConcreteAlgo <;>
      · simp only [register, b1, b2, b3, if_true, if_false, Bool.false_eq_true]
        unfold inReg
        simp_all [hmem _ h4, hmem _ h5, hmem _ h6]
  | module mid => unfold inReg; simp_all [register]
  | other id => unfold inReg; simp_all [register]

/-- A successfully registered object is afterwards present in the registry. -/
theorem inReg_register_self (obj : Entity) (r : Registry)
    (h : registrable obj = true) : inReg obj (register obj r).1 := by
  cases obj with
  | cls c =>
    by_cases h1 : c.subAbstract <;> by_cases h2 : c.subConcrete <;>
      by_cases h3 : c.subWrapper <;>
      simp_all [register, registrable, inReg, mem_insertSet_self]
  | inst i =>
    by_cases h1 : i.isTranslator <;> by_cases h2 : i.isAbstractAlgo <;>
      by_cases h3 : i.isConcreteAlgo <;>
      simp_all [register, registrable, inReg, mem_insertSet_self]
  | module mid => simp [registrable] at h
  | other id => simp [registrable] at h

/-! Helper lemmas about the recursive namespace scan: the `seen_modules` set
only grows, and the number of unseen environment modules strictly shrinks at
every recursion, which bounds the recursion depth and yields
fuel-independence (termination of the source's unbounded recursion). -/

theorem unseen_le_length (env : Env) (seen : List Nat) :
    unseen env seen ≤ env.length :=
  List.countP_le_length _

theorem unseen_anti (env : Env) {s₁ s₂ : List Nat} (h : s₁ ⊆ s₂) :
    unseen env s₂ ≤ unseen env s₁ := by
  apply List.countP_mono_left
  intro p _ hp
  simp only [decide_eq_true_eq] at hp ⊢
  exact fun hmem => hp (h hmem)

theorem countP_lt_of_flip {α : Type} (l : List α) (p q : α → Bool)
    (hmono : ∀ a ∈ l, p a → q a) (a : α) (ha : a ∈ l) (hq : q a = true)
    (hp : ¬ p a = true) : l.countP p < l.countP q := by
  induction l with
  | nil => cases ha
  | cons b t ih =>
    rw [List.countP_cons, List.countP_cons]
    have hmt : ∀ x ∈ t, p x → q x := fun x hx => hmono x (List.mem_cons_of_mem _ hx)
    rcases List.mem_cons.mp ha with rfl | hat
    · have hle : t.countP p ≤ t.countP q := List.countP_mono_left hmt
      rw [if_neg hp, if_pos hq]
      omega
    · have hhead : (if p b = true then 1 else 0) ≤ (if q b = true then 1 else 0) := by
        by_cases hb : p b = true
        · rw [if_pos hb, if_pos (hmono b (List.mem_cons_self b t) hb)]
        · rw [if_neg hb]
          omega
      have := ih hmt hat
      omega

/-- Recursing into a module strictly decreases the number of unseen modules. -/
theorem unseen_insertSet_lt (env : Env) (mid : Nat) (d : ModuleDef)
    (seen : List Nat) (hl : lookupMod env mid = some d) (hns : mid ∉ seen) :
    unseen env (insertSet mid seen) < unseen env seen := by
  unfold lookupMod at hl
  obtain ⟨p, hfind, _⟩ := Option.map_eq_some'.mp hl
  have hmem : p ∈ env := List.mem_of_find?_eq_some hfind
  have hkey : p.1 = mid := by
    have := List.find?_some hfind
    simpa using this
  apply countP_lt_of_flip env _ _ ?_ p hmem
  · simp only [decide_eq_true_eq, hkey]
    exact hns
  · simp only [decide_eq_true_eq, hkey]
    intro hcon
    exact hcon (mem_insertSet_self mid seen)
  · intro x _ hpa
    simp only [decide_eq_true_eq] at hpa ⊢
    exact fun hmem2 => hpa (subset_insertSet mid seen hmem2)

/-- A member step only grows the seen set, provided the recursion handler
does. -/
theorem memberStep_seen_mono (recInto : Nat → ScanState → ScanState)
    (baseName : String) (recurse : Bool) (env : Env)
    (hrec : ∀ mid st, st.seen ⊆ (recInto mid st).seen)
    (key : String) (val : Entity) (st : ScanState) :
    st.seen ⊆ (memberStep recInto baseName recurse env key val st).seen := by
  cases val with
  | cls c =>
    by_cases hk : strStartsWith key "_" <;> by_cases hq : typeQualifies baseName c <;>
      · simp only [memberStep, hk, hq, Bool.false_eq_true, if_true, if_false]
        exact fun x hx => hx
  | inst i =>
    by_cases hk : strStartsWith key "_" <;> by_cases hq : instQualifies i <;>
      · simp only [memberStep, hk, hq, Bool.false_eq_true, if_true, if_false]
        exact fun x hx => hx
  | module mid =>
    by_cases hk : strStartsWith key "_"
    · simp only [memberStep, hk, if_true]
      exact fun x hx => hx
    · simp only [memberStep, hk, Bool.false_eq_true, if_false]
      cases hl : lookupMod env mid with
      | none => exact fun x hx => hx
      | some d =>
        dsimp only
        by_cases hg : recurse = true ∧ strStartsWith d.name baseName = true ∧ mid ∉ st.seen
        · rw [if_pos hg]
          exact fun x hx => hrec mid _ (subset_insertSet mid st.seen hx)
        · rw [if_neg hg]
          exact fun x hx => hx
  | other i =>
    by_cases hk : strStartsWith key "_" <;>
      · simp only [memberStep, hk, Bool.false_eq_true, if_true, if_false]
        exact fun x hx => hx

/-- The member loop only grows the seen set, provided the recursion handler
does. -/
theorem scanMembersF_seen_mono (recInto : Nat → ScanState → ScanState)
    (baseName : String) (recurse : Bool) (env : Env)
    (hrec : ∀ mid st, st.seen ⊆ (recInto mid st).seen) :
    ∀ (ms : List (String × Entity)) (st : ScanState),
      st.seen ⊆ (scanMembersF recInto baseName recurse env ms st).seen := by
  intro ms
  induction ms with
  | nil =>
    intro st
    simp only [scanMembersF]
    exact fun x hx => hx
  | cons hd rest ih =>
    intro st
    obtain ⟨key, val⟩ := hd
    simp only [scanMembersF]
    exact fun x hx =>
      ih _ (memberStep_seen_mono recInto baseName recurse env hrec key val st hx)

/-- `_register_module` only grows the seen set. -/
theorem scanModule_seen_mono (env : Env) (recurse : Bool) (baseName : String) :
    ∀ (fuel mid : Nat) (st : ScanState),
      st.seen ⊆ (scanModule env recurse baseName fuel mid st).seen := by
  intro fuel
  induction fuel with
  | zero =>
    intro mid st
    simp only [scanModule]
    exact fun x hx => hx
  | succ f ih =>
    intro mid st
    simp only [scanModule]
    cases hl : lookupMod env mid with
    | none => exact fun x hx => hx
    | some d =>
      exact fun x hx =>
        scanMembersF_seen_mono (scanModule env recurse baseName f) baseName
          recurse env ih d.members _ hx

/-- A member step is unchanged when the recursion handler is replaced by one
agreeing on states with fewer than `F` unseen modules, and it keeps the
unseen count at or below `F`. -/
theorem memberStep_congr (env : Env) (recurse : Bool) (baseName : String)
    (rec₁ rec₂ : Nat → ScanState → ScanState) (F : Nat)
    (hmono : ∀ mid st, st.seen ⊆ (rec₁ mid st).seen)
    (hagree : ∀ mid st, unseen env st.seen < F → rec₁ mid st = rec₂ mid st)
    (key : String) (val : Entity) (st : ScanState)
    (hst : unseen env st.seen ≤ F) :
    memberStep rec₁ baseName recurse env key val st =
      memberStep rec₂ baseName recurse env key val st ∧
    unseen env (memberStep rec₁ baseName recurse env key val st).seen ≤ F := by
  cases val with
  | cls c =>
    by_cases hk : strStartsWith key "_" <;> by_cases hq : typeQualifies baseName c <;>
      · simp only [memberStep, hk, hq, Bool.false_eq_true, if_true, if_false]
        exact ⟨by trivial, hst⟩
  | inst i =>
    by_cases hk : strStartsWith key "_" <;> by_cases hq : instQualifies i <;>
      · simp only [memberStep, hk, hq, Bool.false_eq_true, if_true, if_false]
        exact ⟨by trivial, hst⟩
  | module mid =>
    by_cases hk : strStartsWith key "_"
    · simp only [memberStep, hk, if_true]
      exact ⟨by trivial, hst⟩
    · simp only [memberStep, hk, Bool.false_eq_true, if_false]
      cases hl : lookupMod env mid with
      | none => exact ⟨by trivial, hst⟩
      | some d =>
        dsimp only
        by_cases hg : recurse = true ∧ strStartsWith d.name baseName = true ∧ mid ∉ st.seen
        · rw [if_pos hg, if_pos hg]
          have hlt : unseen env (insertSet mid st.seen) < unseen env st.seen :=
            unseen_insertSet_lt env mid d st.seen hl hg.2.2
          have hltF : unseen env
              (ScanState.seen { st with seen := insertSet mid st.seen }) < F := by
            dsimp only
            omega
          refine ⟨hagree mid _ hltF, ?_⟩
          have h1 : unseen env
              (rec₁ mid { st with seen := insertSet mid st.seen }).seen ≤
              unseen env (insertSet mid st.seen) :=
            unseen_anti env (hmono mid { st with seen := insertSet mid st.seen })
          omega
        · rw [if_neg hg, if_neg hg]
          exact ⟨by trivial, hst⟩
  | other i =>
    by_cases hk : strStartsWith key "_" <;>
      · simp only [memberStep, hk, Bool.false_eq_true, if_true, if_false]
        exact ⟨by trivial, hst⟩

/-- Congruence of the member loop under two recursion handlers that agree on
states with fewer than `F` unseen modules. -/
theorem scanMembersF_congr (env : Env) (recurse : Bool) (baseName : String)
    (rec₁ rec₂ : Nat → ScanState → ScanState) (F : Nat)
    (hmono : ∀ mid st, st.seen ⊆ (rec₁ mid st).seen)
    (hagree : ∀ mid st, unseen env st.seen < F → rec₁ mid st = rec₂ mid st) :
    ∀ (ms : List (String × Entity)) (st : ScanState),
      unseen env st.seen ≤ F →
        scanMembersF rec₁ baseName recurse env ms st =
          scanMembersF rec₂ baseName recurse env ms st := by
  intro ms
  induction ms with
  | nil => intro st _; simp only [scanMembersF]
  | cons hd rest ih =>
    intro st hst
    obtain ⟨key, val⟩ := hd
    simp only [scanMembersF]
    obtain ⟨hstep, hinv⟩ := memberStep_congr env recurse baseName rec₁ rec₂ F
      hmono hagree key val st hst
    rw [← hstep]
    exact ih _ hinv

/-- Fuel-independence of `_register_module`: any two fuel amounts exceeding
the number of unseen modules produce the same result.  This is the
termination argument for the source's unbounded recursion: the visited-set
guard bounds the recursion depth by the number of live modules. -/
theorem scanModule_stable (env : Env) (recurse : Bool) (baseName : String) :
    ∀ (fuel₁ fuel₂ mid : Nat) (st : ScanState),
      unseen env st.seen < fuel₁ → unseen env st.seen < fuel₂ →
        scanModule env recurse baseName fuel₁ mid st =
          scanModule env recurse baseName fuel₂ mid st := by
  intro fuel₁
  induction fuel₁ with
  | zero => intro fuel₂ mid st h1 _; omega
  | succ f₁ ih =>
    intro fuel₂ mid st h1 h2
    cases fuel₂ with
    | zero => omega
    | succ f₂ =>
      simp only [scanModule]
      cases hl : lookupMod env mid with
      | none => rfl
      | some d =>
        apply scanMembersF_congr env recurse baseName _ _ (min f₁ f₂)
        · exact fun mid2 st2 => scanModule_seen_mono env recurse baseName f₁ mid2 st2
        · intro mid2 st2 hst2
          exact ih f₂ mid2 st2 (lt_of_lt_of_le hst2 (min_le_left f₁ f₂))
            (lt_of_lt_of_le hst2 (min_le_right f₁ f₂))
        · dsimp only
          omega

/-- Fuel-independence of the whole bulk call at any fuel at least
`env.length + 1`. -/
theorem register_from_modulesFuel_stable (env : Env) (args : List Entity)
    (recurse : Bool) (r : Registry) (fuel : Nat) (h : env.length + 1 ≤ fuel) :
    register_from_modulesFuel env fuel args recurse r =
      register_from_modules env args recurse r := by
  unfold register_from_modules register_from_modulesFuel
  by_cases hall : args.all isModuleEnt
  · simp only [hall, if_true]
    have hfold :
        ∀ (l : List Nat) (st : ScanState),
          l.foldl (fun st mid =>
            scanModule env recurse (modName env mid) fuel mid
              { st with seen := insertSet mid st.seen }) st =
          l.foldl (fun st mid =>
            scanModule env recurse (modName env mid) (env.length + 1) mid
              { st with seen := insertSet mid st.seen }) st := by
      intro l
      induction l with
      | nil => intro st; rfl
      | cons mid rest ih =>
        intro st
        simp only [List.foldl_cons]
        rw [scanModule_stable env recurse (modName env mid) fuel (env.length + 1)
          mid { st with seen := insertSet mid st.seen } ?_ ?_]
        · exact ih _
        · show unseen env (insertSet mid st.seen) < fuel
          have := unseen_le_length env (insertSet mid st.seen)
          omega
        · show unseen env (insertSet mid st.seen) < env.length + 1
          have := unseen_le_length env (insertSet mid st.seen)
          omega
    rw [hfold]
  · simp [hall]

/-! Helper lemmas for the origin/ownership filter: a class that fails the
type-member condition for the scan's base name is never added to the registry
by that scan. -/

theorem memberStep_notin (recInto : Nat → ScanState → ScanState)
    (baseName : String) (recurse : Bool) (env : Env) (c : ClassVal)
    (hq : typeQualifies baseName c = false)
    (hrec : ∀ mid st, ¬ inReg (.cls c) st.reg → ¬ inReg (.cls c) (recInto mid st).reg)
    (key : String) (val : Entity) (st : ScanState)
    (h : ¬ inReg (.cls c) st.reg) :
    ¬ inReg (.cls c) (memberStep recInto baseName recurse env key val st).reg := by
  cases val with
  | cls c' =>
    by_cases hk : strStartsWith key "_"
    · simp only [memberStep, hk, if_true]
      exact h
    · simp only [memberStep, hk, Bool.false_eq_true, if_false]
      by_cases hq' : typeQualifies baseName c'
      · rw [if_pos hq']
        have hne : Entity.cls c ≠ Entity.cls c' := by
          intro hcon
          rw [Entity.cls.injEq] at hcon
          rw [hcon, hq'] at hq
          cases hq
        exact register_preserves_notin (.cls c) (.cls c') st.reg hne h
      · rw [if_neg hq']
        exact h
  | inst i =>
    by_cases hk : strStartsWith key "_" <;> by_cases hq' : instQualifies i <;>
      · simp only [memberStep, hk, hq', Bool.false_eq_true, if_true, if_false]
        first
          | exact register_preserves_notin (.cls c) (.inst i) st.reg
              (by intro hcon; cases hcon) h
          | exact h
  | module mid =>
    by_cases hk : strStartsWith key "_"
    · simp only [memberStep, hk, if_true]
      exact h
    · simp only [memberStep, hk, Bool.false_eq_true, if_false]
      cases hl : lookupMod env mid with
      | none => exact h
      | some d =>
        dsimp only
        by_cases hg : recurse = true ∧ strStartsWith d.name baseName = true ∧
            mid ∉ st.seen
        · rw [if_pos hg]
          exact hrec mid { st with seen := insertSet mid st.seen } h
        · rw [if_neg hg]
          exact h
  | other i =>
    by_cases hk : strStartsWith key "_" <;>
      · simp only [memberStep, hk, Bool.false_eq_true, if_true, if_false]
        exact h

theorem scanMembersF_notin (recInto : Nat → ScanState → ScanState)
    (baseName : String) (recurse : Bool) (env : Env) (c : ClassVal)
    (hq : typeQualifies baseName c = false)
    (hrec : ∀ mid st, ¬ inReg (.cls c) st.reg → ¬ inReg (.cls c) (recInto mid st).reg) :
    ∀ (ms : List (String × Entity)) (st : ScanState),
      ¬ inReg (.cls c) st.reg →
        ¬ inReg (.cls c) (scanMembersF recInto baseName recurse env ms st).reg := by
  intro ms
  induction ms with
  | nil =>
    intro st h
    simp only [scanMembersF]
    exact h
  | cons hd rest ih =>
    intro st h
    obtain ⟨key, val⟩ := hd
    simp only [scanMembersF]
    exact ih _ (memberStep_notin recInto baseName recurse env c hq hrec key val st h)

theorem scanModule_notin (env : Env) (recurse : Bool) (baseName : String)
    (c : ClassVal) (hq : typeQualifies baseName c = false) :
    ∀ (fuel mid : Nat) (st : ScanState),
      ¬ inReg (.cls c) st.reg →
        ¬ inReg (.cls c) (scanModule env recurse baseName fuel mid st).reg := by
  intro fuel
  induction fuel with
  | zero =>
    intro mid st h
    simp only [scanModule]
    exact h
  | succ f ih =>
    intro mid st h
    simp only [scanModule]
    cases hl : lookupMod env mid with
    | none => exact h
    | some d =>
      exact scanMembersF_notin (scanModule env recurse baseName f) baseName
        recurse env c hq ih d.members _ h

theorem foldl_scan_notin (env : Env) (recurse : Bool) (fuel : Nat)
    (c : ClassVal) :
    ∀ (l : List Nat) (st : ScanState),
      (∀ mid ∈ l, typeQualifies (modName env mid) c = false) →
      ¬ inReg (.cls c) st.reg →
      ¬ inReg (.cls c) (l.foldl (fun st mid =>
          scanModule env recurse (modName env mid) fuel mid
            { st with seen := insertSet mid st.seen }) st).reg := by
  intro l
  induction l with
  | nil => intro st _ h; exact h
  | cons mid rest ih =>
    intro st hl h
    simp only [List.foldl_cons]
    apply ih _ (fun m hm => hl m (List.mem_cons_of_mem _ hm))
    exact scanModule_notin env recurse (modName env mid) c
      (hl mid (List.mem_cons_self mid rest)) fuel mid _ h

/-- A class failing the origin check for every root passed to the bulk call is
never registered by it. -/
theorem register_from_modulesFuel_notin (env : Env) (fuel : Nat)
    (args : List Entity) (recurse : Bool) (r : Registry) (c : ClassVal)
    (hnotin : ¬ inReg (.cls c) r)
    (hown : ∀ mid : Nat, Entity.module mid ∈ args →
      typeQualifies (modName env mid) c = false) :
    ¬ inReg (.cls c) (register_from_modulesFuel env fuel args recurse r).1.reg := by
  unfold register_from_modulesFuel
  by_cases hall : args.all isModuleEnt
  · simp only [hall, if_true]
    have hmids : ∀ mid ∈ args.filterMap (fun e =>
        match e with
        | Entity.module m => some m
        | _ => none), typeQualifies (modName env mid) c = false := by
      intro mid hmid
      rw [List.mem_filterMap] at hmid
      obtain ⟨e, he, hfe⟩ := hmid
      cases e with
      | module m =>
        simp only [Option.some.injEq] at hfe
        subst hfe
        exact hown m he
      | cls c' => simp at hfe
      | inst i => simp at hfe
      | other i => simp at hfe
    apply foldl_scan_notin env recurse fuel c
    · intro mid hmid
      exact hmids mid ((List.perm_insertionSort _ _).mem_iff.mp hmid)
    · exact hnotin
  · simp only [hall, Bool.false_eq_true, if_false]
    exact hnotin

/-! Remaining helper lemmas used by the claim theorems. -/

theorem typeQualifies_eq_true_iff (baseName : String) (c : ClassVal) :
    typeQualifies baseName c = true ↔
      ((c.subAbstract = true ∨ c.subConcrete = true ∨ c.subWrapper = true) ∧
        (c.module = baseName ∨ strStartsWith c.module (baseName ++ ".") = true) ∧
        c.isBase = false) := by
  simp only [typeQualifies, Bool.and_eq_true, Bool.or_eq_true, beq_iff_eq,
    Bool.not_eq_true']
  tauto

theorem registrable_of_typeQualifies (baseName : String) (c : ClassVal)
    (h : typeQualifies baseName c = true) : registrable (.cls c) = true := by
  simp only [typeQualifies, Bool.and_eq_true, Bool.or_eq_true] at h
  simp only [registrable, Bool.or_eq_true]
  tauto

theorem typeQualifies_eq_false_of_not_owned (bn : String) (c : ClassVal)
    (h1 : c.module ≠ bn) (h2 : strStartsWith c.module (bn ++ ".") = false) :
    typeQualifies bn c = false := by
  by_contra hcon
  rw [Bool.not_eq_false] at hcon
  obtain ⟨-, howned, -⟩ := (typeQualifies_eq_true_iff bn c).mp hcon
  rcases howned with h | h
  · exact h1 h
  · rw [h] at h2
    cases h2

/-- Scanning a module holding a single class member registers the class
exactly under the source's three-part type condition. -/
theorem scanSingleton_inReg_iff (bn key : String) (c : ClassVal)
    (recurse : Bool) (r : Registry) (fuel : Nat)
    (hk : strStartsWith key "_" = false) (hr : ¬ inReg (.cls c) r) :
    (inReg (.cls c)
      (scanModule [(0, ⟨bn, [(key, .cls c)]⟩)] recurse bn (fuel + 1) 0
        ⟨r, [0], []⟩).reg ↔
      ((c.subAbstract = true ∨ c.subConcrete = true ∨ c.subWrapper = true) ∧
        (c.module = bn ∨ strStartsWith c.module (bn ++ ".") = true) ∧
        c.isBase = false)) := by
  have hl : lookupMod [(0, (⟨bn, [(key, .cls c)]⟩ : ModuleDef))] 0 =
      some ⟨bn, [(key, .cls c)]⟩ := rfl
  simp only [scanModule, hl]
  simp only [scanMembersF, memberStep, hk, Bool.false_eq_true, if_false]
  by_cases hq : typeQualifies bn c
  · rw [if_pos hq]
    rw [← typeQualifies_eq_true_iff]
    simp only [hq, iff_true]
    exact inReg_register_self (.cls c) r (registrable_of_typeQualifies bn c hq)
  · rw [if_neg hq]
    rw [← typeQualifies_eq_true_iff]
    simp only [hq]
    simpa using hr

theorem totalCount_register (obj : Entity) (r : Registry)
    (hreg : registrable obj = true) (h0 : totalCount obj r = 0) :
    totalCount obj (register obj r).1 = 1 := by
  unfold totalCount at h0
  have h1 : r.abstract_types.count obj = 0 := by omega
  have h2 : r.concrete_types.count obj = 0 := by omega
  have h3 : r.wrappers.count obj = 0 := by omega
  have h4 : r.translators.count obj = 0 := by omega
  have h5 : r.abstract_algorithms.count obj = 0 := by omega
  have h6 : r.concrete_algorithms.count obj = 0 := by omega
  cases obj with
  | cls c =>
    by_cases b1 : c.subAbstract
    · simp only [register, b1, if_true]
      unfold totalCount
      dsimp only
      rw [count_insertSet_self _ _ h1]
      omega
    · by_cases b2 : c.subConcrete
      · simp only [register, b1, Bool.false_eq_true, if_false, b2, if_true]
        unfold totalCount
        dsimp only
        rw [count_insertSet_self _ _ h2]
        omega
      · by_cases b3 : c.subWrapper
        · simp only [register, b1, b2, Bool.false_eq_true, if_false, b3, if_true]
          unfold totalCount
          dsimp only
          rw [count_insertSet_self _ _ h3]
          omega
        · simp [registrable, b1, b2, b3] at hreg
  | inst i =>
    by_cases b1 : i.isTranslator
    · simp only [register, b1, if_true]
      unfold totalCount
      dsimp only
      rw [count_insertSet_self _ _ h4]
      omega
    · by_cases b2 : i.isAbstractAlgo
      · simp only [register, b1, Bool.false_eq_true, if_false, b2, if_true]
        unfold totalCount
        dsimp only
        rw [count_insertSet_self _ _ h5]
        omega
      · by_cases b3 : i.isConcreteAlgo
        · simp only [register, b1, b2, Bool.false_eq_true, if_false, b3, if_true]
          unfold totalCount
          dsimp only
          rw [count_insertSet_self _ _ h6]
          omega
        · simp [registrable, b1, b2, b3] at hreg
  | module mid => simp [registrable] at hreg
  | other id => simp [registrable] at hreg

theorem regIter_succ_eq_one (obj : Entity) (r : Registry) :
    ∀ n : Nat, regIter obj r (n + 1) = regIter obj r 1 := by
  intro n
  induction n with
  | zero => rfl
  | succ m ih =>
    show (register obj (regIter obj r (m + 1))).1 = regIter obj r 1
    rw [ih]
    show (register obj (register obj (regIter obj r 0)).1).1 = _
    rw [register_idem]
    rfl

theorem register_err_iff (obj : Entity) (r : Registry) :
    (register obj r).2 = some PyErr.pluginRegistryError ↔
      registrable obj = false := by
  cases obj with
  | cls c =>
    by_cases h1 : c.subAbstract <;> by_cases h2 : c.subConcrete <;>
      by_cases h3 : c.subWrapper <;> simp [register, registrable, h1, h2, h3]
  | inst i =>
    by_cases h1 : i.isTranslator <;> by_cases h2 : i.isAbstractAlgo <;>
      by_cases h3 : i.isConcreteAlgo <;> simp [register, registrable, h1, h2, h3]
  | module mid => simp [register, registrable]
  | other id => simp [register, registrable]

theorem ratAbs_eq_abs (q : ℚ) : ratAbs q = |q| := by
  rcases lt_or_le q 0 with h | h
  · rw [ratAbs, if_pos h, abs_of_neg h]
  · rw [ratAbs, if_neg (not_lt.mpr h), abs_of_nonneg h]

/-! Claim theorems. -/

/-- C1, counterexample: with root `a` containing sub-namespace `a.b`, and
`a.b` also passed explicitly as its own root, the claim says `a.b` is visited
and scanned exactly once for the whole call; but the bulk call scans `a.b`
twice (once under `a`'s recursive traversal and once more as its own explicit
root, since the outer root loop never consults the visited set before
scanning). -/
theorem C1_counterexample :
    (register_from_modules envNested [.module 1, .module 0] true
      emptyRegistry).1.visits.count 1 = 2 := by
  decide

/-- C1, amended: roots are processed in order of increasing nesting depth
(here the sub-namespace `a.b` is passed first yet `a` is scanned first); a
namespace reachable from several roots through recursion alone is scanned at
most once, but a sub-namespace that is also passed explicitly as its own root
is scanned once under the shallowest owning root and then re-scanned as its
own root; the re-scan adds nothing to the catalogs (identity-keyed set
semantics), so the final registry equals that of the single shallowest-root
call, with each class registered exactly once. -/
theorem C1_theorem :
    (register_from_modules envNested [.module 1, .module 0] true
      emptyRegistry).1.visits = [0, 1, 1] ∧
    (register_from_modules envNested [.module 1, .module 0] true
      emptyRegistry).1.reg =
      (register_from_modules envNested [.module 0] true emptyRegistry).1.reg ∧
    (register_from_modules envNested [.module 0] true
      emptyRegistry).1.reg.concrete_types.count (.cls exClassA) = 1 ∧
    (register_from_modules envNested [.module 0] true
      emptyRegistry).1.reg.wrappers.count (.cls exClassAB) = 1 := by
  refine ⟨by decide, by decide, by decide, by decide⟩

/-- C2: an entity carrying exactly one of the six recognized capabilities is
placed by `register` in exactly the catalog matching that capability, leaving
the other five catalogs untouched and raising nothing; in particular a
wrapper-only class goes to the wrappers catalog, not the concrete-types
catalog. -/
theorem C2_theorem (r : Registry) :
    (∀ c : ClassVal, c.subAbstract = true → c.subConcrete = false →
      c.subWrapper = false →
      register (.cls c) r =
        ({ r with abstract_types := insertSet (.cls c) r.abstract_types }, none)) ∧
    (∀ c : ClassVal, c.subAbstract = false → c.subConcrete = true →
      c.subWrapper = false →
      register (.cls c) r =
        ({ r with concrete_types := insertSet (.cls c) r.concrete_types }, none)) ∧
    (∀ c : ClassVal, c.subAbstract = false → c.subConcrete = false →
      c.subWrapper = true →
      register (.cls c) r =
        ({ r with wrappers := insertSet (.cls c) r.wrappers }, none)) ∧
    (∀ i : InstVal, i.isTranslator = true → i.isAbstractAlgo = false →
      i.isConcreteAlgo = false →
      register (.inst i) r =
        ({ r with translators := insertSet (.inst i) r.translators }, none)) ∧
    (∀ i : InstVal, i.isTranslator = false → i.isAbstractAlgo = true →
      i.isConcreteAlgo = false →
      register (.inst i) r =
        ({ r with abstract_algorithms :=
          insertSet (.inst i) r.abstract_algorithms }, none)) ∧
    (∀ i : InstVal, i.isTranslator = false → i.isAbstractAlgo = false →
      i.isConcreteAlgo = true →
      register (.inst i) r =
        ({ r with concrete_algorithms :=
          insertSet (.inst i) r.concrete_algorithms }, none)) := by
  refine ⟨?_, ?_, ?_, ?_, ?_, ?_⟩ <;>
    · intro x h1 h2 h3
      simp [register, h1, h2, h3]

/-- C2, witness: a minimal example of each of the six categories lands in
exactly its own catalog of the fresh registry. -/
theorem C2_witness :
    register (.cls ⟨0, "m", true, false, false, false⟩) emptyRegistry =
      (⟨[.cls ⟨0, "m", true, false, false, false⟩], [], [], [], [], []⟩, none) ∧
    register (.cls ⟨1, "m", false, true, false, false⟩) emptyRegistry =
      (⟨[], [.cls ⟨1, "m", false, true, false, false⟩], [], [], [], []⟩, none) ∧
    register (.cls ⟨2, "m", false, false, true, false⟩) emptyRegistry =
      (⟨[], [], [.cls ⟨2, "m", false, false, true, false⟩], [], [], []⟩, none) ∧
    register (.inst ⟨3, true, false, false⟩) emptyRegistry =
      (⟨[], [], [], [.inst ⟨3, true, false, false⟩], [], []⟩, none) ∧
    register (.inst ⟨4, false, true, false⟩) emptyRegistry =
      (⟨[], [], [], [], [.inst ⟨4, false, true, false⟩], []⟩, none) ∧
    register (.inst ⟨5, false, false, true⟩) emptyRegistry =
      (⟨[], [], [], [], [], [.inst ⟨5, false, false, true⟩]⟩, none) :=
  ⟨(C2_theorem emptyRegistry).1 _ rfl rfl rfl,
   (C2_theorem emptyRegistry).2.1 _ rfl rfl rfl,
   (C2_theorem emptyRegistry).2.2.1 _ rfl rfl rfl,
   (C2_theorem emptyRegistry).2.2.2.1 _ rfl rfl rfl,
   (C2_theorem emptyRegistry).2.2.2.2.1 _ rfl rfl rfl,
   (C2_theorem emptyRegistry).2.2.2.2.2 _ rfl rfl rfl⟩

/-- C3: the claim says `compute_abstract_properties` returns normally with a
value for every requested declared property, including the slow `weights`
property on a `str`-dtype edge map.  The code violates this: the
`if ret["dtype"] == "str": weights = "any"` assignment is dead (no `elif`
chains it to the numeric branch), so a nonempty string weight column reaches
`values.min() < 0` and raises `TypeError`; on a float column the same request
does return a value for every requested property. -/
theorem C3_theorem :
    compute_abstract_properties true (.strCol ["a", "b"]) ["weights"] =
      .error .typeError ∧
    compute_abstract_properties true (.floatCol [1, 2]) ["weights"] =
      .ok [("is_directed", "True"), ("dtype", "float"), ("weights", "positive")] := by
  refine ⟨by decide, by decide⟩

/-- C4, counterexample: the claim says every pair of instances whose
corresponding elements differ by `1e-10` is accepted at `rel_tol = 1e-9`; but
with the default `abs_tol = 0` and reference element `b = 0`, the elements
`1e-10` and `0` differ by exactly `1e-10` and `assert_equal` raises, because
`1e-10 > 0 + 1e-9 * |0|`. -/
theorem C4_counterexample :
    ratAbs ((1 / 10000000000 : ℚ) - 0) = 1 / 10000000000 ∧
    assert_equal ⟨true, [((0, 1), 1 / 10000000000)]⟩ ⟨true, [((0, 1), 0)]⟩
      (1 / 1000000000) 0 = .error .assertionError := by
  constructor
  · norm_num [ratAbs]
  · simp [assert_equal, emKeys, isclose, ratAbs]
    norm_num

/-- C4, amended: `assert_equal` compares floating values with combined
relative+absolute tolerance — two aligned values `a` and `b` count as equal
exactly when `abs(a-b) <= abs_tol + rel_tol*abs(b)`; consequently, at
`rel_tol = 1e-9` and `abs_tol = 0`, a per-element difference of `1e-10` is
accepted whenever the reference element satisfies `|b| >= 0.1` (e.g. `b = 1`),
and a per-element difference of `1e-3` is rejected whenever `|b| < 1e6`
(e.g. `b = 1`); for small `|b|` (e.g. `b = 0`) even a `1e-10` difference is
rejected. -/
theorem C4_theorem :
    (∀ (d : Bool) (k : Int × Int) (a b rtol atol : ℚ),
      assert_equal ⟨d, [(k, a)]⟩ ⟨d, [(k, b)]⟩ rtol atol = .ok () ↔
        |a - b| ≤ atol + rtol * |b|) ∧
    assert_equal ⟨true, [((0, 1), 1 + 1 / 10000000000)]⟩ ⟨true, [((0, 1), 1)]⟩
      (1 / 1000000000) 0 = .ok () ∧
    assert_equal ⟨true, [((0, 1), 1 + 1 / 1000)]⟩ ⟨true, [((0, 1), 1)]⟩
      (1 / 1000000000) 0 = .error .assertionError := by
  refine ⟨?_, ?_, ?_⟩
  · intro d k a b rtol atol
    simp [assert_equal, emKeys, isclose, ratAbs_eq_abs]
  · simp [assert_equal, emKeys, isclose, ratAbs]
    norm_num
  · simp [assert_equal, emKeys, isclose, ratAbs]
    norm_num

/-- C5: if any argument of the bulk discovery call is not a module, the call
fails with `TypeError` before any registration: the resulting state carries
the untouched input registry (all six catalogs exactly as before), regardless
of the other arguments. -/
theorem C5_theorem (env : Env) (fuel : Nat) (args : List Entity)
    (recurse : Bool) (r : Registry)
    (h : ∃ e ∈ args, isModuleEnt e = false) :
    register_from_modulesFuel env fuel args recurse r =
      (⟨r, [], []⟩, some PyErr.typeError) := by
  obtain ⟨e, he, hmod⟩ := h
  have hall : args.all isModuleEnt = false := by
    by_contra hcon
    rw [Bool.not_eq_false] at hcon
    rw [List.all_eq_true] at hcon
    rw [hcon e he] at hmod
    cases hmod
  unfold register_from_modulesFuel
  simp only [hall, Bool.false_eq_true, if_false]

/-- C5, witness: a call mixing a non-module argument with a valid root module
containing registrable members fails with `TypeError` and registers nothing. -/
theorem C5_witness :
    register_from_modulesFuel envNested 3 [.other 7, .module 0] true
      emptyRegistry = (⟨emptyRegistry, [], []⟩, some PyErr.typeError) :=
  C5_theorem envNested 3 [.other 7, .module 0] true emptyRegistry
    ⟨.other 7, by decide, by decide⟩

/-- C6: a class member reached in a scan (under a non-private name) is
registered exactly when it (a) extends one of the three type bases, (b) has a
`__module__` equal to, or dot-nested under, the scan root's name, and (c) is
not one of the three base markers; and a class failing the origin check (b)
for every root of a bulk call is never registered by that call. -/
theorem C6_theorem :
    (∀ (bn key : String) (c : ClassVal) (recurse : Bool) (r : Registry)
        (fuel : Nat),
      strStartsWith key "_" = false → ¬ inReg (.cls c) r →
      (inReg (.cls c)
        (scanModule [(0, ⟨bn, [(key, .cls c)]⟩)] recurse bn (fuel + 1) 0
          ⟨r, [0], []⟩).reg ↔
        ((c.subAbstract = true ∨ c.subConcrete = true ∨ c.subWrapper = true) ∧
          (c.module = bn ∨ strStartsWith c.module (bn ++ ".") = true) ∧
          c.isBase = false))) ∧
    (∀ (env : Env) (fuel : Nat) (args : List Entity) (recurse : Bool)
        (r : Registry) (c : ClassVal),
      ¬ inReg (.cls c) r →
      (∀ mid : Nat, Entity.module mid ∈ args →
        c.module ≠ modName env mid ∧
          strStartsWith c.module (modName env mid ++ ".") = false) →
      ¬ inReg (.cls c) (register_from_modulesFuel env fuel args recurse r).1.reg) := by
  constructor
  · intro bn key c recurse r fuel hk hr
    exact scanSingleton_inReg_iff bn key c recurse r fuel hk hr
  · intro env fuel args recurse r c hr hown
    apply register_from_modulesFuel_notin env fuel args recurse r c hr
    intro mid hmid
    exact typeQualifies_eq_false_of_not_owned (modName env mid) c
      (hown mid hmid).1 (hown mid hmid).2

/-- C6, witness: a concrete owned class is registered by the single-member
scan, and the class declared in the distinct module `pkg2` is never
registered when scanning root `pkg` of `envPkgPair`. -/
theorem C6_witness :
    (inReg (.cls exClassA)
      (scanModule [(0, ⟨"a", [("K", .cls exClassA)]⟩)] true "a" (0 + 1) 0
        ⟨emptyRegistry, [0], []⟩).reg ↔
      ((exClassA.subAbstract = true ∨ exClassA.subConcrete = true ∨
          exClassA.subWrapper = true) ∧
        (exClassA.module = "a" ∨
          strStartsWith exClassA.module ("a" ++ ".") = true) ∧
        exClassA.isBase = false)) ∧
    ¬ inReg (.cls exClassPkg2)
      (register_from_modulesFuel envPkgPair 3 [.module 0] true
        emptyRegistry).1.reg :=
  ⟨C6_theorem.1 "a" "K" exClassA true emptyRegistry 0 (by decide) (by decide),
   C6_theorem.2 envPkgPair 3 [.module 0] true emptyRegistry exClassPkg2
    (by decide)
    (by
      intro mid hmid
      rw [List.mem_singleton] at hmid
      rw [Entity.module.injEq] at hmid
      subst hmid
      exact ⟨by decide, by decide⟩)⟩

/-- C7: recursive discovery terminates for every finite environment — the
result is independent of the recursion bound once it exceeds the number of
live modules, which is exactly the stabilization of the source's unbounded
recursion under the visited-set guard — and on the mutually re-exporting
environment `envCycle` the scan visits each namespace once and registers each
qualifying member exactly once. -/
theorem C7_theorem :
    (∀ (env : Env) (args : List Entity) (recurse : Bool) (r : Registry)
        (fuel : Nat), env.length + 1 ≤ fuel →
      register_from_modulesFuel env fuel args recurse r =
        register_from_modules env args recurse r) ∧
    (register_from_modules envCycle [.module 0] true emptyRegistry).1.visits =
      [0, 1] ∧
    (register_from_modules envCycle [.module 0] true
      emptyRegistry).1.reg.concrete_types.count (.cls exClassA) = 1 ∧
    (register_from_modules envCycle [.module 0] true
      emptyRegistry).1.reg.wrappers.count (.cls exClassAB) = 1 := by
  refine ⟨?_, by decide, by decide, by decide⟩
  intro env args recurse r fuel h
  exact register_from_modulesFuel_stable env args recurse r fuel h

/-- C7, witness: on the cyclic environment, a recursion bound far above the
module count gives the same result as the canonical bound. -/
theorem C7_witness :
    register_from_modulesFuel envCycle 17 [.module 0] true emptyRegistry =
      register_from_modules envCycle [.module 0] true emptyRegistry :=
  C7_theorem.1 envCycle [.module 0] true emptyRegistry 17 (by decide)

/-- C8: registration is idempotent: calling `register` on the same entity
`n + 1` times leaves the registry exactly as after one call (so no catalog is
changed by the repeated calls), and for a registrable entity not previously
present anywhere, its total catalog membership after the repeated calls has
cardinality one. -/
theorem C8_theorem (obj : Entity) (r : Registry) (n : Nat) :
    regIter obj r (n + 1) = regIter obj r 1 ∧
    (registrable obj = true → totalCount obj r = 0 →
      totalCount obj (regIter obj r (n + 1)) = 1) := by
  refine ⟨regIter_succ_eq_one obj r n, ?_⟩
  intro hreg h0
  rw [regIter_succ_eq_one obj r n]
  show totalCount obj (register obj (regIter obj r 0)).1 = 1
  exact totalCount_register obj r hreg h0

/-- C8, witness: registering a concrete translator three times leaves the
registry as after one call, with total catalog membership one. -/
theorem C8_witness :
    regIter (.inst ⟨9, true, false, false⟩) emptyRegistry 3 =
      regIter (.inst ⟨9, true, false, false⟩) emptyRegistry 1 ∧
    totalCount (.inst ⟨9, true, false, false⟩)
      (regIter (.inst ⟨9, true, false, false⟩) emptyRegistry 3) = 1 :=
  ⟨(C8_theorem (.inst ⟨9, true, false, false⟩) emptyRegistry 2).1,
   (C8_theorem (.inst ⟨9, true, false, false⟩) emptyRegistry 2).2
    (by decide) (by decide)⟩

/-- C9: `register` raises its classification error exactly when the object
matches none of the six recognized capabilities, and in that failing case the
registry is left unchanged.  (The source spells the error
`PluginRegistryError`; the specification's taxonomy calls it
`ClassificationError`.) -/
theorem C9_theorem (obj : Entity) (r : Registry) :
    ((register obj r).2 = some PyErr.pluginRegistryError ↔
      registrable obj = false) ∧
    (registrable obj = false → (register obj r).1 = r) :=
  ⟨register_err_iff obj r, register_fst_of_unregistrable obj r⟩

/-- C9, witness: an object with no recognized capability raises the
classification error and leaves the fresh registry unchanged. -/
theorem C9_witness :
    (register (.other 3) emptyRegistry).2 = some PyErr.pluginRegistryError ∧
    (register (.other 3) emptyRegistry).1 = emptyRegistry :=
  ⟨(C9_theorem (.other 3) emptyRegistry).1.mpr (by decide),
   (C9_theorem (.other 3) emptyRegistry).2 (by decide)⟩

/-- C10: the recursion guard compares module names by raw string prefix (no
`.` separator required) while the origin check on classes requires equality
or a dot-separated prefix: scanning root `pkg`, the distinct member module
named `pkg2` is treated as textually nested and is scanned (it appears in the
visit log), yet the class declared in `pkg2` fails the origin check for base
`pkg` and nothing is registered. -/
theorem C10_theorem :
    strStartsWith "pkg2" "pkg" = true ∧
    typeQualifies "pkg" exClassPkg2 = false ∧
    (register_from_modules envPkgPair [.module 0] true
      emptyRegistry).1.visits = [0, 1] ∧
    (register_from_modules envPkgPair [.module 0] true emptyRegistry).1.reg =
      emptyRegistry := by
  refine ⟨by decide, by decide, by decide, by decide⟩

end Metagraph
